import Mathlib

/-!
# Verification of the employee CRUD service (`app.py`)

Shallow embedding of the Flask/SQLAlchemy employee management service:
the employee table is a `List Employee` (insertion order), the SQLite
uniqueness constraints on `name` and `email` are enforced at `commit`,
and each HTTP handler is a Lean function from the table and the parsed
JSON body to a response and the resulting table.  The external AI text
generation call is opaque (network); the summary endpoint takes the
generated text as a parameter and we verify only its aggregation logic.

All string handling is faithful to the Python source for ASCII data:
`pyStrip` models `str.strip()`, `pyLower` models `str.lower()`, and
`validate_email` implements the exact language of the regular expression
`^[a-zA-Z0-9._%+-]+@[a-zA-Z0-9.-]+\.[a-zA-Z]{2,}$` under `re.match`
(whose final `$` also matches just before one trailing newline).
-/

/-- Characters removed by Python `str.strip()` (ASCII whitespace). -/
def isPySpace (c : Char) : Bool :=
  c == ' ' || c == '\t' || c == '\n' || c == '\r' || c == '\x0b' || c == '\x0c'

/-- Python `s.strip()`: drop leading and trailing whitespace. -/
def pyStrip (s : String) : String :=
  String.mk (((s.toList.dropWhile isPySpace).reverse.dropWhile isPySpace).reverse)

/-- Python `s.lower()` (ASCII case folding, as used for emails/positions here). -/
def pyLower (s : String) : String :=
  String.mk (s.toList.map Char.toLower)

/-- Character class `[a-zA-Z0-9._%+-]` of the email regex local part. -/
def isLocalChar (c : Char) : Bool :=
  c.isAlpha || c.isDigit || c == '.' || c == '_' || c == '%' || c == '+' || c == '-'

/-- Character class `[a-zA-Z0-9.-]` of the email regex domain part. -/
def isDomainChar (c : Char) : Bool :=
  c.isAlpha || c.isDigit || c == '.' || c == '-'

/-- Split a character list at its last dot: `some (before, after)`, or `none`
if there is no dot.  Used because the regex tail `\.[a-zA-Z]{2,}$` must
consume the last dot of the string (the TLD may not contain a dot). -/
def splitAtLastDot (cs : List Char) : Option (List Char × List Char) :=
  let r := cs.reverse
  let tldRev := r.takeWhile (fun c => c != '.')
  match r.drop tldRev.length with
  | [] => none
  | _ :: domRev => some (domRev.reverse, tldRev.reverse)

/-- Full match of `[a-zA-Z0-9._%+-]+@[a-zA-Z0-9.-]+\.[a-zA-Z]{2,}` against the
whole character list.  The local part is the (necessarily unique) maximal
run before the first `@`; the dot before the TLD is the last dot. -/
def emailCore (cs : List Char) : Bool :=
  let localPart := cs.takeWhile (fun c => c != '@')
  match cs.drop localPart.length with
  | [] => false
  | _ :: afterAt =>
    !localPart.isEmpty && localPart.all isLocalChar &&
    (match splitAtLastDot afterAt with
     | none => false
     | some (dom, tld) =>
       !dom.isEmpty && dom.all isDomainChar &&
       Nat.ble 2 tld.length && tld.all (fun c => c.isAlpha))

/-- Model of `validate_email` from `app.py`: `re.match(pattern, email) is not None` with
`pattern = r'^[a-zA-Z0-9._%+-]+@[a-zA-Z0-9.-]+\.[a-zA-Z]{2,}$'`.  Python's
`$` (without `re.MULTILINE`) matches at the end of the string or just
before a newline at the end of the string. -/
def validate_email (email : String) : Bool :=
  let cs := email.toList
  emailCore cs ||
    (match cs.getLast? with
     | some c => c == '\n' && emailCore cs.dropLast
     | none => false)

/-- A row of the employee table.  `created_at` is omitted: no claim and no
behaviour under verification depends on the timestamp column. -/
structure Employee where
  id : Nat
  name : String
  email : String
  position : String
deriving Repr, DecidableEq

/-- The parsed JSON body of a create/update request: each of the three known
keys may be present (`some`) or absent (`none`). -/
structure EmpData where
  name? : Option String
  email? : Option String
  position? : Option String
deriving Repr, DecidableEq

/-- Python `not data` on the parsed body: the dict is falsy when it has no
entries, i.e. none of the three fields is present. -/
def EmpData.isEmptyDict (d : EmpData) : Bool :=
  d.name?.isNone && d.email?.isNone && d.position?.isNone

/-- Python `data.get(key)` is truthy iff the key is present with a non-empty
string value. -/
def fieldTruthy (o : Option String) : Bool :=
  match o with
  | some s => s != ""
  | none => false

/-- Python `if not data.get(k) or not data[k].strip()` for a required field:
absent, empty, or whitespace-only. -/
def requiredBlank (o : Option String) : Bool :=
  match o with
  | none => true
  | some s => s == "" || pyStrip s == ""

/-- The f-string of the name/position conflict error:
`Employee "<name>" already exists with position "<position>". Each employee
can only have one position.` -/
def positionConflictMsg (nm pos : String) : String :=
  "Employee \"" ++ nm ++ "\" already exists with position \"" ++ pos ++
    "\". Each employee can only have one position."

/-- Python truthiness of the `employee_id` argument (an `int` or `None`):
falsy when `None` or `0`. -/
def employeeIdTruthy (o : Option Nat) : Bool :=
  match o with
  | some i => i != 0
  | none => false

/-- Model of `validate_employee_data(data, check_required, employee_id)`:
returns the list of error strings in the order the source appends them.
`rows` is the current employee table (the source reads it through
`Employee.query.filter_by(name=...)`, an exact-match lookup under
SQLite's default BINARY collation, hence `find?` with string equality). -/
def validate_employee_data (rows : List Employee) (data : EmpData)
    (check_required : Bool) (employee_id : Option Nat) : List String :=
  let requiredErrors :=
    if check_required then
      (if requiredBlank data.name? then ["Name is required and cannot be empty"] else []) ++
      (if requiredBlank data.email? then ["Email is required and cannot be empty"] else []) ++
      (if requiredBlank data.position? then ["Position is required and cannot be empty"] else [])
    else []
  let emailFormatErrors :=
    if fieldTruthy data.email? && !validate_email (data.email?.getD "") then
      ["Invalid email format"]
    else []
  let nameLenErrors :=
    if fieldTruthy data.name? && decide (100 < (data.name?.getD "").length) then
      ["Name must be 100 characters or less"]
    else []
  let posLenErrors :=
    if fieldTruthy data.position? && decide (100 < (data.position?.getD "").length) then
      ["Position must be 100 characters or less"]
    else []
  let conflictErrors :=
    match data.name? with
    | none => []
    | some n =>
      if n == "" then []
      else
        match rows.find? (fun e => e.name == pyStrip n) with
        | none => []
        | some existing_employee =>
          if employeeIdTruthy employee_id &&
              existing_employee.id == employee_id.getD 0 then []
          else if pyLower existing_employee.position !=
              pyLower (pyStrip (data.position?.getD "")) then
            [positionConflictMsg (pyStrip n) existing_employee.position]
          else []
  requiredErrors ++ emailFormatErrors ++ nameLenErrors ++ posLenErrors ++ conflictErrors

/-- JSON response shape shared by the CRUD handlers: HTTP status and the
keys (`success`, `error`, `errors`, `message`, `data`) that `jsonify`
may emit; absent keys are `none`. -/
structure ApiResponse where
  status : Nat
  success : Bool
  error? : Option String
  errors? : Option (List String)
  message? : Option String
  data? : Option Employee
deriving Repr, DecidableEq

/-- Response `jsonify({'success': False, 'error': msg}), code`. -/
def errResp (code : Nat) (msg : String) : ApiResponse :=
  ⟨code, false, some msg, none, none, none⟩

/-- Response `jsonify({'success': False, 'errors': errs}), 400`. -/
def errListResp (errs : List String) : ApiResponse :=
  ⟨400, false, none, some errs, none, none⟩

/-- Response `jsonify({'success': True, 'message': msg, 'data': emp}), code`. -/
def okResp (code : Nat) (msg : String) (emp : Employee) : ApiResponse :=
  ⟨code, true, none, none, some msg, some emp⟩

/-- Response `jsonify({'success': True, 'message': msg}), 200` (delete success). -/
def msgResp (code : Nat) (msg : String) : ApiResponse :=
  ⟨code, true, none, none, some msg, none⟩

/-- SQLite integer primary key assignment: one more than the largest rowid. -/
def freshId (rows : List Employee) : Nat :=
  rows.foldl (fun m e => max m e.id) 0 + 1

/-- The projection `f` is injective over the list: SQLite `UNIQUE` column. -/
def uniqueBy (f : Employee → String) : List Employee → Bool
  | [] => true
  | e :: rest => rest.all (fun x => f x != f e) && uniqueBy f rest

/-- Both `UNIQUE` constraints of the `employee` table (`name`, `email`). -/
def dbOK (rows : List Employee) : Bool :=
  uniqueBy (fun e => e.name) rows && uniqueBy (fun e => e.email) rows

/-- Model of `db.session.commit()`: persists the staged table.  `fault` injects an
unexpected storage error (any exception other than a constraint
violation); with no fault, the commit raises exactly when a `UNIQUE`
constraint of the schema is violated. -/
def commit (fault : Option String) (rows : List Employee) :
    Except String (List Employee) :=
  match fault with
  | some msg => Except.error msg
  | none =>
    if dbOK rows then Except.ok rows
    else Except.error "UNIQUE constraint failed"

/-- The `Employee(...)` constructor call of `create_employee`: trimmed name
and position, trimmed lowercased email, auto-increment id. -/
def newEmployee (rows : List Employee) (data : EmpData) : Employee :=
  ⟨freshId rows, pyStrip (data.name?.getD ""),
   pyLower (pyStrip (data.email?.getD "")),
   pyStrip (data.position?.getD "")⟩

/-- The three conditional assignments of `update_employee`: each provided
field is normalized (`strip`, plus lowercase for email); absent fields
keep the stored value. -/
def applyUpdate (employee : Employee) (data : EmpData) : Employee :=
  ⟨employee.id,
   match data.name? with
   | some n => pyStrip n
   | none => employee.name,
   match data.email? with
   | some em => pyLower (pyStrip em)
   | none => employee.email,
   match data.position? with
   | some p => pyStrip p
   | none => employee.position⟩

/-- Handler `POST /api/employees` (`create_employee` in `app.py`).  Returns the JSON
response and the table after the request (unchanged on every error path:
either nothing was staged or the session was rolled back). -/
def create_employee (fault : Option String) (rows : List Employee)
    (data : EmpData) : ApiResponse × List Employee :=
  if data.isEmptyDict then (errResp 400 "No data provided", rows)
  else
    match validate_employee_data rows data true none with
    | e :: es => (errListResp (e :: es), rows)
    | [] =>
      match rows.find? (fun emp => emp.email == data.email?.getD "") with
      | some _ => (errResp 409 "Employee with this email already exists", rows)
      | none =>
        match rows.find? (fun emp => emp.name == pyStrip (data.name?.getD "")) with
        | some existing_name =>
          (errResp 409
            (positionConflictMsg (pyStrip (data.name?.getD "")) existing_name.position),
           rows)
        | none =>
          let new_employee : Employee := newEmployee rows data
          match commit fault (rows ++ [new_employee]) with
          | Except.ok rows2 =>
            (okResp 201 "Employee created successfully" new_employee, rows2)
          | Except.error msg => (errResp 500 msg, rows)

/-- Handler `GET /api/employees/<id>` (`get_employee`): read-only. -/
def get_employee (rows : List Employee) (employee_id : Nat) : ApiResponse :=
  match rows.find? (fun e => e.id == employee_id) with
  | none => errResp 404 "Employee not found"
  | some e => ⟨200, true, none, none, none, some e⟩

/-- Handler `GET /api/employees` (`get_employees`): status, rows in insertion order,
and `count`. -/
def get_employees (rows : List Employee) : Nat × List Employee × Nat :=
  (200, rows, rows.length)

/-- Handler `PUT /api/employees/<id>` (`update_employee` in `app.py`). -/
def update_employee (fault : Option String) (rows : List Employee)
    (employee_id : Nat) (data : EmpData) : ApiResponse × List Employee :=
  match rows.find? (fun e => e.id == employee_id) with
  | none => (errResp 404 "Employee not found", rows)
  | some employee =>
    if data.isEmptyDict then (errResp 400 "No data provided", rows)
    else
      match validate_employee_data rows data false (some employee_id) with
      | e :: es => (errListResp (e :: es), rows)
      | [] =>
        let emailConflict : Bool :=
          match data.email? with
          | some em => em != employee.email &&
              (rows.find? (fun x => x.email == em)).isSome
          | none => false
        if emailConflict then
          (errResp 409 "Employee with this email already exists", rows)
        else
          let nameConflict : Option Employee :=
            match data.name? with
            | some n =>
              if pyStrip n != employee.name then
                rows.find? (fun x => x.name == pyStrip n)
              else none
            | none => none
          match nameConflict with
          | some existing_name =>
            (errResp 409
              (positionConflictMsg (pyStrip (data.name?.getD ""))
                existing_name.position),
             rows)
          | none =>
            let updated : Employee := applyUpdate employee data
            let rows2 := rows.map (fun e => if e.id == employee_id then updated else e)
            match commit fault rows2 with
            | Except.ok rows3 =>
              (okResp 200 "Employee updated successfully" updated, rows3)
            | Except.error msg => (errResp 500 msg, rows)

/-- Handler `DELETE /api/employees/<id>` (`delete_employee` in `app.py`): deletion by
primary key removes exactly the rows with that id. -/
def delete_employee (fault : Option String) (rows : List Employee)
    (employee_id : Nat) : ApiResponse × List Employee :=
  match rows.find? (fun e => e.id == employee_id) with
  | none => (errResp 404 "Employee not found", rows)
  | some _ =>
    match commit fault (rows.filter (fun e => e.id != employee_id)) with
    | Except.ok rows2 => (msgResp 200 "Employee deleted successfully", rows2)
    | Except.error msg => (errResp 500 msg, rows)

/-- One iteration of the histogram loop
`position_stats[p] = position_stats.get(p, 0) + 1` on an
insertion-ordered association list (a Python dict keyed by strings). -/
def bumpPosition : List (String × Nat) → String → List (String × Nat)
  | [], p => [(p, 1)]
  | (q, n) :: rest, p =>
    if q == p then (q, n + 1) :: rest else (q, n) :: bumpPosition rest p

/-- The `position_stats` dict built by `get_ai_summary_route`. -/
def position_stats (rows : List Employee) : List (String × Nat) :=
  rows.foldl (fun acc e => bumpPosition acc e.position) []

/-- The JSON payload of `GET /api/ai-summary`. -/
structure AiSummaryResponse where
  status : Nat
  success : Bool
  summary : String
  total_employees : Nat
  unique_positions : Nat
  position_distribution : List (String × Nat)
deriving Repr, DecidableEq

/-- Handler `GET /api/ai-summary` (`get_ai_summary_route` in `app.py`).  The text
returned by `get_ai_summary` comes from an external generation service
(or one of its string fallbacks) and is passed in as `summaryText`;
`unique_positions` is `len(list(set(positions)))` and
`position_distribution` the insertion-ordered histogram. -/
def get_ai_summary_route (summaryText : String) (rows : List Employee) :
    AiSummaryResponse :=
  ⟨200, true, summaryText, rows.length,
   ((rows.map Employee.position).dedup).length, position_stats rows⟩

/-- One API operation, as issued by a client. -/
inductive Op
  | opList
  | opGet (employee_id : Nat)
  | opCreate (data : EmpData)
  | opUpdate (employee_id : Nat) (data : EmpData)
  | opDelete (employee_id : Nat)
deriving Repr, DecidableEq

/-- The table after one operation (with an optional injected storage fault). -/
def applyOp (fault : Option String) (rows : List Employee) : Op → List Employee
  | Op.opList => rows
  | Op.opGet _ => rows
  | Op.opCreate d => (create_employee fault rows d).2
  | Op.opUpdate eid d => (update_employee fault rows eid d).2
  | Op.opDelete eid => (delete_employee fault rows eid).2

/-- The table after a sequence of operations, each with its own fault choice. -/
def runOps (steps : List (Option String × Op)) (rows : List Employee) :
    List Employee :=
  steps.foldl (fun r s => applyOp s.1 r s.2) rows

/-- The spec's table invariant: no two rows share an email, and no two rows
share a name unless they also share the same position. -/
def EmpInv (rows : List Employee) : Prop :=
  rows.Pairwise
    (fun a b => a.email ≠ b.email ∧ (a.name = b.name → a.position = b.position))

example : validate_email "john.doe@example.com" = true := by decide
example : validate_email "invalid-email" = false := by decide
example : validate_email "a@b.c.com" = true := by decide
example : validate_email "a@b.com\n" = true := by decide
example : validate_email " a@b.com" = false := by decide
example : validate_email "" = false := by decide
example : pyStrip "  John Doe  " = "John Doe" := by decide
example : pyLower "Test@Example.COM" = "test@example.com" := by decide

/-! ## Helper lemmas -/

theorem if_singleton_eq_nil {α : Type} {b : Bool} {x : α}
    (h : (if b = true then [x] else []) = []) : b = false := by
  cases b <;> simp_all

theorem requiredBlank_false {o : Option String} (h : requiredBlank o = false) :
    ∃ s, o = some s ∧ pyStrip s ≠ "" := by
  cases o with
  | none => simp [requiredBlank] at h
  | some s =>
    refine ⟨s, rfl, ?_⟩
    simp [requiredBlank] at h
    exact h.2

theorem uniqueBy_iff_pairwise (f : Employee → String) (rows : List Employee) :
    uniqueBy f rows = true ↔ rows.Pairwise (fun a b => f a ≠ f b) := by
  induction rows with
  | nil => simp [uniqueBy]
  | cons e rest ih =>
    simp only [uniqueBy, Bool.and_eq_true, List.all_eq_true, bne_iff_ne,
      List.pairwise_cons, ih]
    constructor
    · rintro ⟨h1, h2⟩
      exact ⟨fun b hb => (h1 b hb).symm, h2⟩
    · rintro ⟨h1, h2⟩
      exact ⟨fun b hb => (h1 b hb).symm, h2⟩

theorem dbOK_pairwise {rows : List Employee} (h : dbOK rows = true) :
    rows.Pairwise (fun a b => a.name ≠ b.name) ∧
      rows.Pairwise (fun a b => a.email ≠ b.email) := by
  simp only [dbOK, Bool.and_eq_true] at h
  exact ⟨(uniqueBy_iff_pairwise _ rows).1 h.1, (uniqueBy_iff_pairwise _ rows).1 h.2⟩

theorem dbOK_of_pairwise {rows : List Employee}
    (hn : rows.Pairwise (fun a b => a.name ≠ b.name))
    (he : rows.Pairwise (fun a b => a.email ≠ b.email)) : dbOK rows = true := by
  simp only [dbOK, Bool.and_eq_true]
  exact ⟨(uniqueBy_iff_pairwise _ rows).2 hn, (uniqueBy_iff_pairwise _ rows).2 he⟩

theorem dbOK_empInv {rows : List Employee} (h : dbOK rows = true) : EmpInv rows := by
  obtain ⟨hn, he⟩ := dbOK_pairwise h
  exact (hn.and he).imp (fun hab => ⟨hab.2, fun hnm => absurd hnm hab.1⟩)

theorem dbOK_filter {rows : List Employee} (p : Employee → Bool)
    (h : dbOK rows = true) : dbOK (rows.filter p) = true := by
  obtain ⟨hn, he⟩ := dbOK_pairwise h
  exact dbOK_of_pairwise (hn.sublist (List.filter_sublist _))
    (he.sublist (List.filter_sublist _))

theorem commit_ok_cases {fault : Option String} {staged rows2 : List Employee}
    (h : commit fault staged = Except.ok rows2) :
    rows2 = staged ∧ dbOK staged = true := by
  cases fault with
  | some m => simp [commit] at h
  | none =>
    simp only [commit] at h
    by_cases hdb : dbOK staged = true
    · rw [if_pos hdb] at h
      cases h
      exact ⟨rfl, hdb⟩
    · rw [if_neg hdb] at h
      exact absurd h (by simp)

theorem commit_none_ok {staged : List Employee} (h : dbOK staged = true) :
    commit none staged = Except.ok staged := by
  simp [commit, h]

theorem commit_fault {m : String} {staged : List Employee} :
    commit (some m) staged = Except.error m := rfl

theorem dbOK_of_commit_ok {fault : Option String} {staged rows2 : List Employee}
    (h : commit fault staged = Except.ok rows2) : dbOK rows2 = true := by
  obtain ⟨h1, h2⟩ := commit_ok_cases h
  subst h1
  exact h2

theorem create_table_cases (fault : Option String) (rows : List Employee)
    (data : EmpData) :
    (create_employee fault rows data).2 = rows ∨
      dbOK (create_employee fault rows data).2 = true := by
  simp only [create_employee]
  repeat' split
  all_goals first
    | exact Or.inl rfl
    | exact Or.inr (dbOK_of_commit_ok (by assumption))

theorem update_table_cases (fault : Option String) (rows : List Employee)
    (employee_id : Nat) (data : EmpData) :
    (update_employee fault rows employee_id data).2 = rows ∨
      dbOK (update_employee fault rows employee_id data).2 = true := by
  simp only [update_employee]
  repeat' split
  all_goals first
    | exact Or.inl rfl
    | exact Or.inr (dbOK_of_commit_ok (by assumption))

theorem delete_table_cases (fault : Option String) (rows : List Employee)
    (employee_id : Nat) :
    (delete_employee fault rows employee_id).2 = rows ∨
      dbOK (delete_employee fault rows employee_id).2 = true := by
  simp only [delete_employee]
  repeat' split
  all_goals first
    | exact Or.inl rfl
    | exact Or.inr (dbOK_of_commit_ok (by assumption))

theorem applyOp_empInv (fault : Option String) (rows : List Employee) (op : Op)
    (h : EmpInv rows) : EmpInv (applyOp fault rows op) := by
  cases op with
  | opList => exact h
  | opGet eid => exact h
  | opCreate d =>
    rcases create_table_cases fault rows d with hc | hc
    · rw [applyOp, hc]; exact h
    · exact dbOK_empInv hc
  | opUpdate eid d =>
    rcases update_table_cases fault rows eid d with hc | hc
    · rw [applyOp, hc]; exact h
    · exact dbOK_empInv hc
  | opDelete eid =>
    rcases delete_table_cases fault rows eid with hc | hc
    · rw [applyOp, hc]; exact h
    · exact dbOK_empInv hc

/-- Value stored under key `p` in the histogram dict, `0` when absent
(Python `position_stats.get(p, 0)`). -/
def countOf (acc : List (String × Nat)) (p : String) : Nat :=
  match acc.find? (fun pr => pr.1 == p) with
  | some pr => pr.2
  | none => 0

theorem countOf_bump (acc : List (String × Nat)) (p q : String) :
    countOf (bumpPosition acc p) q =
      if q = p then countOf acc q + 1 else countOf acc q := by
  induction acc with
  | nil =>
    by_cases hq : q = p
    · subst hq
      simp [bumpPosition, countOf]
    · have hpq : (p == q) = false := by
        simp [beq_iff_eq]
        exact fun hc => hq hc.symm
      simp [bumpPosition, countOf, List.find?_cons, hpq, hq]
  | cons hd rest ih =>
    obtain ⟨r, n⟩ := hd
    by_cases hrp : r = p
    · subst hrp
      by_cases hq : q = r
      · subst hq
        simp [bumpPosition, countOf, List.find?_cons]
      · have hrq : (r == q) = false := by
          simp [beq_iff_eq]
          exact fun hc => hq hc.symm
        simp [bumpPosition, countOf, List.find?_cons, hrq, hq]
    · have hrp' : (r == p) = false := by simp [beq_iff_eq, hrp]
      by_cases hrq : r = q
      · have hq : ¬ q = p := by rw [← hrq]; exact hrp
        have hrq2 : (r == q) = true := by simp [beq_iff_eq, hrq]
        simp [bumpPosition, countOf, List.find?_cons, hrp', hrq2, hq]
      · have hrq' : (r == q) = false := by simp [beq_iff_eq, hrq]
        simp only [bumpPosition, hrp', Bool.false_eq_true, if_false, countOf,
          List.find?_cons, hrq']
        have ihq := ih
        simp only [countOf] at ihq
        exact ihq

theorem countOf_foldl (rows : List Employee) (p : String) :
    ∀ acc, countOf (rows.foldl (fun a e => bumpPosition a e.position) acc) p =
      countOf acc p + (rows.filter (fun e => e.position == p)).length := by
  induction rows with
  | nil => intro acc; simp
  | cons e rest ih =>
    intro acc
    simp only [List.foldl_cons, ih (bumpPosition acc e.position), countOf_bump]
    by_cases hp : p = e.position
    · have : (e.position == p) = true := by simp [beq_iff_eq, hp.symm]
      simp [List.filter_cons, this, hp]
      omega
    · have : (e.position == p) = false := by
        simp [beq_iff_eq]
        exact fun hc => hp hc.symm
      simp [List.filter_cons, this, hp]

theorem countOf_position_stats (rows : List Employee) (p : String) :
    countOf (position_stats rows) p =
      (rows.filter (fun e => e.position == p)).length := by
  have h := countOf_foldl rows p []
  simpa [position_stats, countOf] using h

theorem validate_nil_not_blank {rows : List Employee} {d : EmpData}
    {eid : Option Nat} (h : validate_employee_data rows d true eid = []) :
    requiredBlank d.name? = false ∧ requiredBlank d.email? = false ∧
      requiredBlank d.position? = false := by
  refine ⟨?_, ?_, ?_⟩
  · cases hb : requiredBlank d.name? with
    | false => rfl
    | true => exfalso; simp [validate_employee_data, hb] at h
  · cases hb : requiredBlank d.email? with
    | false => rfl
    | true => exfalso; simp [validate_employee_data, hb] at h
  · cases hb : requiredBlank d.position? with
    | false => rfl
    | true => exfalso; simp [validate_employee_data, hb] at h

theorem requiredBlank_some_false {s : String} (h : pyStrip s ≠ "") :
    requiredBlank (some s) = false := by
  have hs : s ≠ "" := fun hs0 => h (by rw [hs0]; decide)
  simp [requiredBlank, h, hs]

theorem position_stats_mem (rows : List Employee) (p : String)
    (h : 0 < (rows.filter (fun e => e.position == p)).length) :
    ((position_stats rows).find? (fun pr => pr.1 == p)).isSome = true := by
  by_contra hcon
  have hnone : (position_stats rows).find? (fun pr => pr.1 == p) = none := by
    cases hfind : (position_stats rows).find? (fun pr => pr.1 == p) with
    | none => rfl
    | some pr => rw [hfind] at hcon; simp at hcon
  have h0 : countOf (position_stats rows) p = 0 := by
    simp [countOf, hnone]
  rw [countOf_position_stats] at h0
  omega

theorem create_201_cases (fault : Option String) (rows : List Employee)
    (data : EmpData) (h : (create_employee fault rows data).1.status = 201) :
    validate_employee_data rows data true none = [] ∧
      create_employee fault rows data =
        (okResp 201 "Employee created successfully" (newEmployee rows data),
         rows ++ [newEmployee rows data]) := by
  by_cases hdict : data.isEmptyDict = true
  · rw [create_employee, if_pos hdict] at h
    simp [errResp] at h
  · cases hval : validate_employee_data rows data true none with
    | cons e es =>
      rw [create_employee, if_neg hdict] at h
      simp only [hval, errListResp] at h
      simp at h
    | nil =>
      cases hfe : rows.find? (fun emp => emp.email == data.email?.getD "") with
      | some e0 =>
        rw [create_employee, if_neg hdict] at h
        simp only [hval, hfe, errResp] at h
        simp at h
      | none =>
        cases hfn :
            rows.find? (fun emp => emp.name == pyStrip (data.name?.getD "")) with
        | some e0 =>
          rw [create_employee, if_neg hdict] at h
          simp only [hval, hfe, hfn, errResp] at h
          simp at h
        | none =>
          cases hcm : commit fault (rows ++ [newEmployee rows data]) with
          | error msg =>
            rw [create_employee, if_neg hdict] at h
            simp only [hval, hfe, hfn, hcm, errResp] at h
            simp at h
          | ok rows2 =>
            obtain ⟨hr2, _⟩ := commit_ok_cases hcm
            subst hr2
            refine ⟨rfl, ?_⟩
            rw [create_employee, if_neg hdict]
            simp only [hval, hfe, hfn, hcm]

theorem update_200_cases (fault : Option String) (rows : List Employee)
    (employee_id : Nat) (data : EmpData)
    (h : (update_employee fault rows employee_id data).1.status = 200) :
    ∃ employee, rows.find? (fun e => e.id == employee_id) = some employee ∧
      update_employee fault rows employee_id data =
        (okResp 200 "Employee updated successfully" (applyUpdate employee data),
         rows.map (fun e =>
           if e.id == employee_id then applyUpdate employee data else e)) := by
  cases hfound : rows.find? (fun e => e.id == employee_id) with
  | none =>
    rw [update_employee] at h
    simp only [hfound, errResp] at h
    simp at h
  | some employee =>
    refine ⟨employee, rfl, ?_⟩
    by_cases hdict : data.isEmptyDict = true
    · rw [update_employee] at h
      simp only [hfound, if_pos hdict, errResp] at h
      simp at h
    · cases hval : validate_employee_data rows data false (some employee_id) with
      | cons e es =>
        rw [update_employee] at h
        simp only [hfound, if_neg hdict, hval, errListResp] at h
        simp at h
      | nil =>
        by_cases hec :
            (match data.email? with
             | some em0 => em0 != employee.email &&
                 (rows.find? (fun x : Employee => x.email == em0)).isSome
             | none => false) = true
        · rw [update_employee] at h
          simp only [hfound, if_neg hdict, hval, if_pos hec, errResp] at h
          simp at h
        · cases hnc :
              (match data.name? with
               | some n0 =>
                 if pyStrip n0 != employee.name then
                   rows.find? (fun x : Employee => x.name == pyStrip n0)
                 else none
               | none => none) with
          | some ex =>
            rw [update_employee] at h
            simp only [hfound, if_neg hdict, hval, if_neg hec, hnc, errResp] at h
            simp at h
          | none =>
            cases hcm : commit fault
                (rows.map (fun e =>
                  if e.id == employee_id then applyUpdate employee data else e)) with
            | error msg =>
              rw [update_employee] at h
              simp only [hfound, if_neg hdict, hval, if_neg hec, hnc, hcm,
                errResp] at h
              simp at h
            | ok rows3 =>
              obtain ⟨hr3, _⟩ := commit_ok_cases hcm
              subst hr3
              rw [update_employee]
              simp only [hfound, if_neg hdict, hval, if_neg hec, hnc, hcm]

/-! ## Claim theorems -/

/-- Claim C7: for every create request that passes field validation, if an
existing row has the same trimmed name — even when the requested position
is identical to the existing row's position — create returns 409 and adds
no row; name uniqueness is strict, not merely per-position. -/
theorem create_name_uniqueness_strict (fault : Option String)
    (rows : List Employee) (data : EmpData) (n : String) (ex : Employee)
    (hval : validate_employee_data rows data true none = [])
    (hn : data.name? = some n)
    (hfind : rows.find? (fun e => e.name == pyStrip n) = some ex) :
    (create_employee fault rows data).1.status = 409 ∧
      (create_employee fault rows data).2 = rows := by
  have hne : data.isEmptyDict = false := by simp [EmpData.isEmptyDict, hn]
  cases hfe : rows.find? (fun emp => emp.email == data.email?.getD "") with
  | some e0 =>
    simp [create_employee, hne, hval, hfe, errResp]
  | none =>
    have hgd : data.name?.getD "" = n := by rw [hn]; rfl
    have hfind2 :
        rows.find? (fun emp => emp.name == pyStrip (data.name?.getD "")) =
          some ex := by
      rw [hgd]; exact hfind
    simp [create_employee, hne, hval, hfe, hfind2, errResp]

/-- Witness for C7: creating a second "Alice" with the same position "Dev"
is still rejected with 409 and the table is unchanged. -/
theorem create_name_uniqueness_strict_witness :
    (create_employee none [⟨1, "Alice", "a@b.com", "Dev"⟩]
        ⟨some "Alice", some "new@b.com", some "Dev"⟩).1.status = 409 ∧
      (create_employee none [⟨1, "Alice", "a@b.com", "Dev"⟩]
        ⟨some "Alice", some "new@b.com", some "Dev"⟩).2 =
        [⟨1, "Alice", "a@b.com", "Dev"⟩] :=
  create_name_uniqueness_strict none _ _ "Alice" ⟨1, "Alice", "a@b.com", "Dev"⟩
    (by decide) rfl (by decide)

/-- Claim C1 counterexample: with an existing row ("Alice", position "Dev"), a
create request for name "Alice" with the different position "Manager"
returns status 400 (the validation-error path), not the claimed 409. -/
theorem create_name_conflict_409_counterexample :
    pyStrip "Alice" = "Alice" ∧
      pyLower "Manager" ≠ pyLower "Dev" ∧
      (create_employee none [⟨1, "Alice", "a@b.com", "Dev"⟩]
          ⟨some "Alice", some "new@b.com", some "Manager"⟩).1.status = 400 ∧
      (create_employee none [⟨1, "Alice", "a@b.com", "Dev"⟩]
          ⟨some "Alice", some "new@b.com", some "Manager"⟩).1.status ≠ 409 := by
  decide

/-- Claim C1 amended: for every create request where an existing row has the
same trimmed name but a different position (case-insensitively), create
returns a structured **400** validation error whose error list names the
conflicting position of the existing row, and no row is added. -/
theorem create_name_conflict_returns_400 (fault : Option String)
    (rows : List Employee) (data : EmpData) (n : String) (ex : Employee)
    (hn : data.name? = some n) (hne : n ≠ "")
    (hfind : rows.find? (fun e => e.name == pyStrip n) = some ex)
    (hpos : pyLower ex.position ≠ pyLower (pyStrip (data.position?.getD ""))) :
    (create_employee fault rows data).1.status = 400 ∧
      positionConflictMsg (pyStrip n) ex.position ∈
        ((create_employee fault rows data).1.errors?).getD [] ∧
      (create_employee fault rows data).2 = rows := by
  have hdict : data.isEmptyDict = false := by simp [EmpData.isEmptyDict, hn]
  have hmem : positionConflictMsg (pyStrip n) ex.position ∈
      validate_employee_data rows data true none := by
    simp [validate_employee_data, hn, hne, hfind, employeeIdTruthy, bne_iff_ne,
      hpos]
  obtain ⟨e, es, herr⟩ := List.exists_cons_of_ne_nil (List.ne_nil_of_mem hmem)
  rw [herr] at hmem
  refine ⟨?_, ?_, ?_⟩
  · simp [create_employee, hdict, herr, errListResp]
  · simp only [create_employee, hdict, Bool.false_eq_true, if_false, herr,
      errListResp]
    simpa using hmem
  · simp [create_employee, hdict, herr, errListResp]

/-- Witness for the amended C1 at the counterexample input: 400, the error
list names position "Dev", and the table is unchanged. -/
theorem create_name_conflict_returns_400_witness :
    (create_employee none [⟨1, "Alice", "a@b.com", "Dev"⟩]
        ⟨some "Alice", some "new@b.com", some "Manager"⟩).1.status = 400 ∧
      positionConflictMsg "Alice" "Dev" ∈
        ((create_employee none [⟨1, "Alice", "a@b.com", "Dev"⟩]
            ⟨some "Alice", some "new@b.com", some "Manager"⟩).1.errors?).getD [] ∧
      (create_employee none [⟨1, "Alice", "a@b.com", "Dev"⟩]
          ⟨some "Alice", some "new@b.com", some "Manager"⟩).2 =
        [⟨1, "Alice", "a@b.com", "Dev"⟩] :=
  create_name_conflict_returns_400 none _ _ "Alice" ⟨1, "Alice", "a@b.com", "Dev"⟩
    rfl (by decide) (by decide) (by decide)

/-- Claim C2 counterexample: "A@b.com" trims/lowercases to the stored email
"a@b.com", yet create does not return 409: the duplicate check compares
the raw request email, misses, and the insert then dies on the database
UNIQUE constraint, giving 500. -/
theorem create_duplicate_email_normalized_counterexample :
    pyLower (pyStrip "A@b.com") = "a@b.com" ∧
      validate_employee_data [⟨1, "Alice", "a@b.com", "Dev"⟩]
        ⟨some "Bob", some "A@b.com", some "Dev"⟩ true none = [] ∧
      (create_employee none [⟨1, "Alice", "a@b.com", "Dev"⟩]
          ⟨some "Bob", some "A@b.com", some "Dev"⟩).1.status = 500 ∧
      (create_employee none [⟨1, "Alice", "a@b.com", "Dev"⟩]
          ⟨some "Bob", some "A@b.com", some "Dev"⟩).1.status ≠ 409 := by
  decide

/-- Claim C2 amended: for every create request that passes field validation and
whose email **as given** exactly equals the stored email of some existing
row, create returns 409 with the error "Employee with this email already
exists" and adds no row.  (A duplicate that only matches after
trimming/lowercasing is missed by the handler's check and surfaces as a
500 from the database's unique constraint instead.) -/
theorem create_duplicate_email_exact_409 (fault : Option String)
    (rows : List Employee) (data : EmpData) (em : String) (ex : Employee)
    (hval : validate_employee_data rows data true none = [])
    (hem : data.email? = some em)
    (hfind : rows.find? (fun e => e.email == em) = some ex) :
    create_employee fault rows data =
      (errResp 409 "Employee with this email already exists", rows) := by
  have hdict : data.isEmptyDict = false := by simp [EmpData.isEmptyDict, hem]
  have hfind2 : rows.find? (fun e => e.email == data.email?.getD "") = some ex := by
    rw [hem]; exact hfind
  simp [create_employee, hdict, hval, hfind2]

/-- Witness for the amended C2: an exact duplicate email is rejected with
409 and no row is added. -/
theorem create_duplicate_email_exact_409_witness :
    create_employee none [⟨1, "Alice", "a@b.com", "Dev"⟩]
        ⟨some "Bob", some "a@b.com", some "Mgr"⟩ =
      (errResp 409 "Employee with this email already exists",
       [⟨1, "Alice", "a@b.com", "Dev"⟩]) :=
  create_duplicate_email_exact_409 none _ _ "a@b.com"
    ⟨1, "Alice", "a@b.com", "Dev"⟩ (by decide) rfl (by decide)

/-- Claim C4 counterexample: updating an existing row with the email value ""
(which does not match the email pattern) is *not* rejected: the truthiness
guard skips the format check, the update succeeds with 200, and the stored
record changes (its email becomes ""). -/
theorem update_invalid_email_counterexample :
    validate_email "" = false ∧
      (update_employee none [⟨1, "Alice", "a@b.com", "Dev"⟩] 1
          ⟨none, some "", none⟩).1.status = 200 ∧
      (update_employee none [⟨1, "Alice", "a@b.com", "Dev"⟩] 1
          ⟨none, some "", none⟩).2 ≠ [⟨1, "Alice", "a@b.com", "Dev"⟩] := by
  decide

/-- Claim C4 amended: for every update request on an existing id whose JSON body
provides a **non-empty** email value that does not match the standard
email pattern, update returns 400 with an error list (containing "Invalid
email format") and the stored table is unchanged.  (An empty-string email
is falsy in Python, skips the format check, and is stored as "".) -/
theorem update_nonempty_invalid_email_400 (fault : Option String)
    (rows : List Employee) (employee_id : Nat) (data : EmpData)
    (em : String) (ex : Employee)
    (hfound : rows.find? (fun e => e.id == employee_id) = some ex)
    (hem : data.email? = some em) (hne : em ≠ "")
    (hbad : validate_email em = false) :
    (update_employee fault rows employee_id data).1.status = 400 ∧
      "Invalid email format" ∈
        ((update_employee fault rows employee_id data).1.errors?).getD [] ∧
      (update_employee fault rows employee_id data).2 = rows := by
  have hdict : data.isEmptyDict = false := by simp [EmpData.isEmptyDict, hem]
  have hmem : "Invalid email format" ∈
      validate_employee_data rows data false (some employee_id) := by
    simp [validate_employee_data, hem, fieldTruthy, hne, hbad]
  obtain ⟨e, es, herr⟩ := List.exists_cons_of_ne_nil (List.ne_nil_of_mem hmem)
  rw [herr] at hmem
  refine ⟨?_, ?_, ?_⟩
  · rw [update_employee]
    simp [hfound, hdict, herr, errListResp]
  · rw [update_employee]
    simp only [hfound, hdict, Bool.false_eq_true, if_false, herr, errListResp]
    simpa using hmem
  · rw [update_employee]
    simp [hfound, hdict, herr, errListResp]

/-- Witness for the amended C4: a malformed non-empty email on update gives
400, the error list contains "Invalid email format", and the table is
unchanged. -/
theorem update_nonempty_invalid_email_400_witness :
    (update_employee none [⟨1, "Alice", "a@b.com", "Dev"⟩] 1
        ⟨none, some "not-an-email", none⟩).1.status = 400 ∧
      "Invalid email format" ∈
        ((update_employee none [⟨1, "Alice", "a@b.com", "Dev"⟩] 1
            ⟨none, some "not-an-email", none⟩).1.errors?).getD [] ∧
      (update_employee none [⟨1, "Alice", "a@b.com", "Dev"⟩] 1
          ⟨none, some "not-an-email", none⟩).2 =
        [⟨1, "Alice", "a@b.com", "Dev"⟩] :=
  update_nonempty_invalid_email_400 none _ 1 _ "not-an-email"
    ⟨1, "Alice", "a@b.com", "Dev"⟩ (by decide) rfl (by decide) (by decide)

/-- Claim C3: every sequence of list, get, create, update and delete operations
(each with an arbitrary injected storage-fault choice) preserves the
invariant on the employee table: no two rows share an email, and no two
rows share a name unless they also share the same position. -/
theorem crud_preserves_invariant (steps : List (Option String × Op))
    (rows : List Employee) (h : EmpInv rows) : EmpInv (runOps steps rows) := by
  induction steps generalizing rows with
  | nil => exact h
  | cons s rest ih => exact ih _ (applyOp_empInv s.1 rows s.2 h)

/-- Witness for C3: the invariant holds for the empty table and is preserved
across a concrete create / update / delete / create sequence. -/
theorem crud_preserves_invariant_witness :
    EmpInv (runOps
      [(none, Op.opCreate ⟨some "John Smith", some "john@company.com",
          some "Engineer"⟩),
       (none, Op.opUpdate 1 ⟨none, none, some "Lead Engineer"⟩),
       (none, Op.opCreate ⟨some "Jane Doe", some "jane@company.com",
          some "Manager"⟩),
       (none, Op.opDelete 2)] []) :=
  crud_preserves_invariant _ [] List.Pairwise.nil

/-- Claim C10: for every table state, the ai-summary endpoint returns 200 with
JSON in which `position_distribution` maps each distinct position among
the stored rows to the exact number of rows holding that position
(`countOf` reads the histogram, returning 0 for absent keys, and every
position that occurs has an entry), `total_employees` equals the number of
rows, and `unique_positions` equals the number of distinct positions,
alongside the summary text. -/
theorem ai_summary_histogram (text : String) (rows : List Employee) :
    (get_ai_summary_route text rows).status = 200 ∧
      (get_ai_summary_route text rows).success = true ∧
      (get_ai_summary_route text rows).summary = text ∧
      (get_ai_summary_route text rows).total_employees = rows.length ∧
      (get_ai_summary_route text rows).unique_positions =
        (rows.map Employee.position).toFinset.card ∧
      (∀ p, countOf (get_ai_summary_route text rows).position_distribution p =
        (rows.filter (fun e => e.position == p)).length) ∧
      (∀ p, 0 < (rows.filter (fun e => e.position == p)).length →
        (((get_ai_summary_route text rows).position_distribution).find?
          (fun pr => pr.1 == p)).isSome = true) := by
  refine ⟨rfl, rfl, rfl, rfl, ?_, ?_, ?_⟩
  · simp [get_ai_summary_route, List.card_toFinset]
  · intro p
    exact countOf_position_stats rows p
  · intro p hp
    exact position_stats_mem rows p hp

/-- Witness for C10 on a concrete three-row table: status 200, "Dev" is
counted twice, and totals are 3 rows over 2 distinct positions. -/
theorem ai_summary_histogram_witness :
    (get_ai_summary_route "summary" [⟨1, "a", "e1", "Dev"⟩, ⟨2, "b", "e2", "QA"⟩,
        ⟨3, "c", "e3", "Dev"⟩]).status = 200 ∧
      countOf (get_ai_summary_route "summary" [⟨1, "a", "e1", "Dev"⟩,
        ⟨2, "b", "e2", "QA"⟩, ⟨3, "c", "e3", "Dev"⟩]).position_distribution "Dev" =
        ([⟨1, "a", "e1", "Dev"⟩, ⟨2, "b", "e2", "QA"⟩,
          (⟨3, "c", "e3", "Dev"⟩ : Employee)].filter
            (fun e => e.position == "Dev")).length :=
  ⟨(ai_summary_histogram "summary" _).1,
   (ai_summary_histogram "summary" _).2.2.2.2.2.1 "Dev"⟩

/-- Claim C6: on every successful create (201) or update (200), the stored and
returned row has name and position equal to the input values stripped of
surrounding whitespace, and email equal to the input value stripped and
lowercased; update keeps the stored value for absent fields
(`applyUpdate`). -/
theorem create_update_normalize_fields (fault : Option String)
    (rows : List Employee) (dataC : EmpData) (employee_id : Nat)
    (dataU : EmpData) :
    ((create_employee fault rows dataC).1.status = 201 →
      ∃ n em p, dataC.name? = some n ∧ dataC.email? = some em ∧
        dataC.position? = some p ∧
        (create_employee fault rows dataC).1.data? =
          some ⟨freshId rows, pyStrip n, pyLower (pyStrip em), pyStrip p⟩ ∧
        (create_employee fault rows dataC).2 =
          rows ++ [⟨freshId rows, pyStrip n, pyLower (pyStrip em), pyStrip p⟩]) ∧
      ((update_employee fault rows employee_id dataU).1.status = 200 →
        ∃ old, rows.find? (fun e => e.id == employee_id) = some old ∧
          (update_employee fault rows employee_id dataU).1.data? =
            some (applyUpdate old dataU) ∧
          (update_employee fault rows employee_id dataU).2 =
            rows.map (fun e =>
              if e.id == employee_id then applyUpdate old dataU else e)) := by
  constructor
  · intro h201
    obtain ⟨hval, heq⟩ := create_201_cases fault rows dataC h201
    obtain ⟨hb1, hb2, hb3⟩ := validate_nil_not_blank hval
    obtain ⟨n, hn, _⟩ := requiredBlank_false hb1
    obtain ⟨em, hem, _⟩ := requiredBlank_false hb2
    obtain ⟨p, hp, _⟩ := requiredBlank_false hb3
    have hnew : newEmployee rows dataC =
        ⟨freshId rows, pyStrip n, pyLower (pyStrip em), pyStrip p⟩ := by
      simp [newEmployee, hn, hem, hp]
    refine ⟨n, em, p, hn, hem, hp, ?_, ?_⟩
    · rw [heq]
      simp [okResp, hnew]
    · rw [heq]
      simp [hnew]
  · intro h200
    obtain ⟨old, hfound, heq⟩ := update_200_cases fault rows employee_id dataU h200
    refine ⟨old, hfound, ?_, ?_⟩
    · rw [heq]
      simp [okResp]
    · rw [heq]

/-- Witness for C6: a create with padded name/position and a mixed-case email
with a trailing newline stores the normalized row; an update normalizes
the provided fields and keeps the absent position. -/
theorem create_update_normalize_fields_witness :
    (create_employee none [] ⟨some "  Al  ", some "A@b.com\n", some " Dev "⟩).1.data? =
      some ⟨1, "Al", "a@b.com", "Dev"⟩ ∧
      (update_employee none [⟨1, "Alice", "a@b.com", "Dev"⟩] 1
          ⟨some " Bob ", some "B@c.com\n", none⟩).1.data? =
        some ⟨1, "Bob", "b@c.com", "Dev"⟩ := by
  obtain ⟨n, em, p, hn, hem, hp, hdata, htab⟩ :=
    (create_update_normalize_fields none []
      ⟨some "  Al  ", some "A@b.com\n", some " Dev "⟩ 1
      ⟨some " Bob ", some "B@c.com\n", none⟩).1 (by decide)
  obtain ⟨old, hfound, hdata2, htab2⟩ :=
    (create_update_normalize_fields none [⟨1, "Alice", "a@b.com", "Dev"⟩]
      ⟨some "  Al  ", some "A@b.com\n", some " Dev "⟩ 1
      ⟨some " Bob ", some "B@c.com\n", none⟩).2 (by decide)
  constructor
  · cases hn
    cases hem
    cases hp
    rw [hdata]
    decide
  · have h0 : some (⟨1, "Alice", "a@b.com", "Dev"⟩ : Employee) = some old := hfound
    cases h0
    rw [hdata2]
    decide

/-- Claim C8: for every id (on a table satisfying the schema's uniqueness
constraints): if no row has that id, delete returns 404 and the table is
unchanged; otherwise delete returns 200, the row with that id is removed,
and every other row is unchanged. -/
theorem delete_frame (rows : List Employee) (employee_id : Nat)
    (hdb : dbOK rows = true) :
    (rows.find? (fun e => e.id == employee_id) = none →
      delete_employee none rows employee_id =
        (errResp 404 "Employee not found", rows)) ∧
      (∀ ex, rows.find? (fun e => e.id == employee_id) = some ex →
        delete_employee none rows employee_id =
          (msgResp 200 "Employee deleted successfully",
           rows.filter (fun e => e.id != employee_id))) := by
  constructor
  · intro hnone
    rw [delete_employee]
    simp [hnone]
  · intro ex hsome
    have hfl : dbOK (rows.filter (fun e => e.id != employee_id)) = true :=
      dbOK_filter _ hdb
    rw [delete_employee]
    simp [hsome, commit_none_ok hfl]

/-- Witness for C8: deleting an absent id 2 gives 404 with the table intact;
deleting the present id 1 gives 200 and removes exactly that row. -/
theorem delete_frame_witness :
    delete_employee none [⟨1, "Alice", "a@b.com", "Dev"⟩] 2 =
      (errResp 404 "Employee not found", [⟨1, "Alice", "a@b.com", "Dev"⟩]) ∧
      delete_employee none [⟨1, "Alice", "a@b.com", "Dev"⟩] 1 =
        (msgResp 200 "Employee deleted successfully", []) := by
  constructor
  · exact (delete_frame [⟨1, "Alice", "a@b.com", "Dev"⟩] 2 (by decide)).1 (by decide)
  · exact (delete_frame [⟨1, "Alice", "a@b.com", "Dev"⟩] 1 (by decide)).2
      ⟨1, "Alice", "a@b.com", "Dev"⟩ (by decide)

theorem commit_fault_not_ok {m : String} {staged rows2 : List Employee} :
    commit (some m) staged ≠ Except.ok rows2 := by
  simp [commit]

theorem commit_fault_error_msg {m msg : String} {staged : List Employee}
    (h : commit (some m) staged = Except.error msg) : msg = m := by
  simp [commit] at h
  exact h.symm

/-- Claim C9: if the underlying storage raises an unexpected error during
create, update, or delete (the injected fault `some m`, raised at
`commit`), the handler leaves the employee table in its pre-request state
(rollback) on every path; and every request that actually performs the
storage write — witnessed by the same request succeeding (201/200) when no
fault is injected — is answered with exactly the 500 response carrying the
raw error message, over the unchanged table. -/
theorem storage_error_rollback (m : String) (rows : List Employee)
    (data : EmpData) (employee_id : Nat) :
    ((create_employee (some m) rows data).2 = rows ∧
      ((create_employee none rows data).1.status = 201 →
        create_employee (some m) rows data = (errResp 500 m, rows))) ∧
      ((update_employee (some m) rows employee_id data).2 = rows ∧
        ((update_employee none rows employee_id data).1.status = 200 →
          update_employee (some m) rows employee_id data =
            (errResp 500 m, rows))) ∧
      ((delete_employee (some m) rows employee_id).2 = rows ∧
        ((delete_employee none rows employee_id).1.status = 200 →
          delete_employee (some m) rows employee_id =
            (errResp 500 m, rows))) := by
  refine ⟨⟨?_, ?_⟩, ⟨?_, ?_⟩, ⟨?_, ?_⟩⟩
  · simp only [create_employee]
    repeat' split
    all_goals first
      | exact absurd (by assumption) commit_fault_not_ok
      | rfl
  · intro h201
    by_cases hdict : data.isEmptyDict = true
    · rw [create_employee, if_pos hdict] at h201
      simp [errResp] at h201
    · cases hval : validate_employee_data rows data true none with
      | cons e es =>
        rw [create_employee, if_neg hdict] at h201
        simp only [hval, errListResp] at h201
        simp at h201
      | nil =>
        cases hfe : rows.find? (fun emp => emp.email == data.email?.getD "") with
        | some e0 =>
          rw [create_employee, if_neg hdict] at h201
          simp only [hval, hfe, errResp] at h201
          simp at h201
        | none =>
          cases hfn :
              rows.find? (fun emp => emp.name == pyStrip (data.name?.getD "")) with
          | some e0 =>
            rw [create_employee, if_neg hdict] at h201
            simp only [hval, hfe, hfn, errResp] at h201
            simp at h201
          | none =>
            rw [create_employee, if_neg hdict]
            simp only [hval, hfe, hfn]
            rfl
  · simp only [update_employee]
    repeat' split
    all_goals first
      | exact absurd (by assumption) commit_fault_not_ok
      | rfl
  · intro h200
    cases hfound : rows.find? (fun e => e.id == employee_id) with
    | none =>
      rw [update_employee] at h200
      simp only [hfound, errResp] at h200
      simp at h200
    | some employee =>
      by_cases hdict : data.isEmptyDict = true
      · rw [update_employee] at h200
        simp only [hfound, if_pos hdict, errResp] at h200
        simp at h200
      · cases hval : validate_employee_data rows data false (some employee_id) with
        | cons e es =>
          rw [update_employee] at h200
          simp only [hfound, if_neg hdict, hval, errListResp] at h200
          simp at h200
        | nil =>
          by_cases hec :
              (match data.email? with
               | some em0 => em0 != employee.email &&
                   (rows.find? (fun x : Employee => x.email == em0)).isSome
               | none => false) = true
          · rw [update_employee] at h200
            simp only [hfound, if_neg hdict, hval, if_pos hec, errResp] at h200
            simp at h200
          · cases hnc :
                (match data.name? with
                 | some n0 =>
                   if pyStrip n0 != employee.name then
                     rows.find? (fun x : Employee => x.name == pyStrip n0)
                   else none
                 | none => none) with
            | some ex =>
              rw [update_employee] at h200
              simp only [hfound, if_neg hdict, hval, if_neg hec, hnc,
                errResp] at h200
              simp at h200
            | none =>
              rw [update_employee]
              simp only [hfound, if_neg hdict, hval, if_neg hec, hnc]
              rfl
  · simp only [delete_employee]
    repeat' split
    all_goals first
      | exact absurd (by assumption) commit_fault_not_ok
      | rfl
  · intro h200
    cases hfound : rows.find? (fun e => e.id == employee_id) with
    | none =>
      rw [delete_employee] at h200
      simp only [hfound, errResp] at h200
      simp at h200
    | some ex =>
      rw [delete_employee]
      simp only [hfound]
      rfl

/-- Witness for C9: on a one-row table, a create, an update and a delete that
would each succeed instead hit the injected storage error "disk I/O
error": each handler answers 500 carrying that raw message and leaves the
table unchanged. -/
theorem storage_error_rollback_witness :
    create_employee (some "disk I/O error") [⟨1, "Alice", "a@b.com", "Dev"⟩]
        ⟨some "Bob", some "b@c.com", some "QA"⟩ =
      (errResp 500 "disk I/O error", [⟨1, "Alice", "a@b.com", "Dev"⟩]) ∧
      update_employee (some "disk I/O error") [⟨1, "Alice", "a@b.com", "Dev"⟩] 1
          ⟨some "Bob", some "b@c.com", some "QA"⟩ =
        (errResp 500 "disk I/O error", [⟨1, "Alice", "a@b.com", "Dev"⟩]) ∧
      delete_employee (some "disk I/O error") [⟨1, "Alice", "a@b.com", "Dev"⟩] 1 =
        (errResp 500 "disk I/O error", [⟨1, "Alice", "a@b.com", "Dev"⟩]) :=
  ⟨(storage_error_rollback "disk I/O error" [⟨1, "Alice", "a@b.com", "Dev"⟩]
      ⟨some "Bob", some "b@c.com", some "QA"⟩ 1).1.2 (by decide),
   (storage_error_rollback "disk I/O error" [⟨1, "Alice", "a@b.com", "Dev"⟩]
      ⟨some "Bob", some "b@c.com", some "QA"⟩ 1).2.1.2 (by decide),
   (storage_error_rollback "disk I/O error" [⟨1, "Alice", "a@b.com", "Dev"⟩]
      ⟨some "Bob", some "b@c.com", some "QA"⟩ 1).2.2.2 (by decide)⟩

/-- A well-formed email of 121 characters: 114 letters, "@", domain "ab",
TLD "com". -/
def emLong : String := String.mk (List.replicate 114 'a') ++ "@ab.com"

set_option maxRecDepth 4000 in
/-- Claim C5 counterexample: the code never checks the email's length.  This
121-character email (all other fields valid, empty table) passes
validation and create succeeds with 201 and adds the row, instead of the
claimed 400. -/
theorem create_long_email_counterexample :
    120 < emLong.length ∧ validate_email emLong = true ∧
      (create_employee none [] ⟨some "Alice", some emLong, some "Dev"⟩).1.status =
        201 ∧
      (create_employee none [] ⟨some "Alice", some emLong, some "Dev"⟩).2 ≠ [] := by
  decide

/-- Claim C5 amended: create enforces the length limits name ≤ 100 and
position ≤ 100 only; email length is never validated (the ≤ 120 exists
only as the column's declared size, which SQLite does not enforce).  With
all other fields valid and no conflicts, a name longer than 100 characters
yields 400 with an error list and no row, while an email longer than 120
characters is accepted: create returns 201 and stores the row. -/
theorem create_length_limits (rows : List Employee) (n em p : String)
    (hname : pyStrip n ≠ "") (hposs : pyStrip p ≠ "") (hplen : p.length ≤ 100)
    (hemv : validate_email em = true) (hemlen : 120 < em.length)
    (hemstrip : pyStrip em ≠ "")
    (hnf : rows.find? (fun e => e.name == pyStrip n) = none)
    (hef : rows.find? (fun e => e.email == em) = none)
    (hok : dbOK (rows ++ [newEmployee rows ⟨some n, some em, some p⟩]) = true) :
    (100 < n.length →
      (create_employee none rows ⟨some n, some em, some p⟩).1.status = 400 ∧
        (create_employee none rows ⟨some n, some em, some p⟩).2 = rows) ∧
      (n.length ≤ 100 →
        create_employee none rows ⟨some n, some em, some p⟩ =
          (okResp 201 "Employee created successfully"
            (newEmployee rows ⟨some n, some em, some p⟩),
           rows ++ [newEmployee rows ⟨some n, some em, some p⟩])) := by
  have hnne : n ≠ "" := fun h0 => hname (by rw [h0]; decide)
  have hemne : em ≠ "" := fun h0 => hemstrip (by rw [h0]; decide)
  have hrb1 := requiredBlank_some_false hname
  have hrb2 := requiredBlank_some_false hemstrip
  have hrb3 := requiredBlank_some_false hposs
  have hplen2 : ¬ (100 < p.length) := by omega
  have hval : validate_employee_data rows ⟨some n, some em, some p⟩ true none =
      if 100 < n.length then ["Name must be 100 characters or less"] else [] := by
    simp [validate_employee_data, hrb1, hrb2, hrb3, fieldTruthy, hnne, hemne,
      hemv, hplen2, hnf]
  constructor
  · intro hlen
    have hval2 : validate_employee_data rows ⟨some n, some em, some p⟩ true none =
        ["Name must be 100 characters or less"] := by
      rw [hval, if_pos hlen]
    constructor
    · rw [create_employee]
      simp [EmpData.isEmptyDict, hval2, errListResp]
    · rw [create_employee]
      simp [EmpData.isEmptyDict, hval2, errListResp]
  · intro hle
    have hval2 : validate_employee_data rows ⟨some n, some em, some p⟩ true none =
        [] := by
      rw [hval, if_neg (by omega)]
    have hcm := commit_none_ok hok
    rw [create_employee]
    simp [EmpData.isEmptyDict, hval2, hef, hnf, hcm]

set_option maxRecDepth 4000 in
/-- Witness for the amended C5: the 121-character email is accepted — create
returns 201 and appends the normalized row. -/
theorem create_length_limits_witness :
    create_employee none [] ⟨some "Alice", some emLong, some "Dev"⟩ =
      (okResp 201 "Employee created successfully"
        (newEmployee [] ⟨some "Alice", some emLong, some "Dev"⟩),
       [] ++ [newEmployee [] ⟨some "Alice", some emLong, some "Dev"⟩]) :=
  (create_length_limits [] "Alice" emLong "Dev" (by decide) (by decide)
    (by decide) (by decide) (by decide) (by decide) (by decide) (by decide)
    (by decide)).2 (by decide)
